import Mathlib

/-!
Verification of the Resume Curator frontend core: the validation engine
(frontend/src/utils/validation.js), the form state hook
(frontend/src/hooks/useFormValidation.js), the API polling helpers
(frontend/src/services/api.js, concatenated after DashboardPage.jsx),
the analysis polling hook (frontend/src/hooks/useApi.js) and the result
transformation (App.jsx transformAnalysisData).

JavaScript runtime values are shallowly embedded as `JSValue`; property
access and method calls that can raise a TypeError are modelled in the
`Except JsErr` monad.  Strings are modelled through their character lists
(`String.data`), which matches the JS code unit view for the ASCII data
these functions handle.
-/

set_option maxRecDepth 20000

namespace ResumeCurator

/-- Model of a JavaScript/JSON runtime value as it flows through the frontend. -/
inductive JSValue where
  | vNull
  | vUndefined
  | vBool (b : Bool)
  | vNum (n : Int)
  | vStr (s : String)
  | vArr (elems : List JSValue)
  | vObj (fields : List (String × JSValue))

/-- Model of a JavaScript exception raised by the embedded code.  The only
exception kind these code paths can raise is a TypeError (property access on
null or undefined, or calling a method that the receiver does not have). -/
inductive JsErr where
  | typeError
deriving DecidableEq

/-- JavaScript truthiness of a value (NaN does not occur in the modelled data). -/
def truthy : JSValue → Bool
  | .vNull => false
  | .vUndefined => false
  | .vBool b => b
  | .vNum n => n != 0
  | .vStr s => s != ""
  | .vArr _ => true
  | .vObj _ => true

/-- Object field lookup; with duplicate keys the later entry wins, as in a JS
object literal.  A missing key yields `undefined`. -/
def objLookup (fields : List (String × JSValue)) (key : String) : JSValue :=
  match fields.reverse.lookup key with
  | some v => v
  | none => .vUndefined

/-- JavaScript property access `v[key]`.  Throws a TypeError on null or
undefined receivers; string and array receivers expose `length`; other
primitive receivers yield `undefined` for the properties read by this code. -/
def getField : JSValue → String → Except JsErr JSValue
  | .vNull, _ => .error .typeError
  | .vUndefined, _ => .error .typeError
  | .vStr s, key => if key == "length" then .ok (.vNum s.data.length) else .ok .vUndefined
  | .vArr xs, key => if key == "length" then .ok (.vNum xs.length) else .ok .vUndefined
  | .vObj fields, key => .ok (objLookup fields key)
  | _, _ => .ok .vUndefined

/-- JavaScript `a || b` (value-returning disjunction). -/
def jsOr (a b : JSValue) : JSValue := if truthy a then a else b

/-- Strict equality test `v === null || v === undefined || v === ''` used by
`validateRequired`. -/
def jsIsNullUndefOrEmptyStr : JSValue → Bool
  | .vNull => true
  | .vUndefined => true
  | .vStr s => s == ""
  | _ => false

/-- Strict equality test `v === 0`. -/
def jsStrictEqZero : JSValue → Bool
  | .vNum n => n == 0
  | _ => false

/-- Strict equality test `v === s` against a string literal. -/
def jsStrictEqStr (v : JSValue) (s : String) : Bool :=
  match v with
  | .vStr t => t == s
  | _ => false

/-- JavaScript `v > bound` for a numeric bound.  `undefined` and other
non-numeric values compare false (NaN); numeric strings, which would coerce,
do not occur in the modelled data. -/
def jsGtNum (v : JSValue) (bound : Int) : Bool :=
  match v with
  | .vNum n => bound < n
  | .vBool b => bound < (if b then (1 : Int) else 0)
  | _ => false

/-- Lowercasing used for `String.prototype.toLowerCase` on the ASCII data here. -/
def jsToLower (s : String) : String := String.mk (s.data.map Char.toLower)

/-- Character list form of `String.prototype.trim` (the inputs handled here
use ASCII whitespace). -/
def jsTrimList (l : List Char) : List Char :=
  ((l.dropWhile Char.isWhitespace).reverse.dropWhile Char.isWhitespace).reverse

/-- `String.prototype.trim`. -/
def jsTrim (s : String) : String := String.mk (jsTrimList s.data)

/-- A single error or warning entry `{type, message, field}` pushed by
`ValidationResult.addError` / `addWarning`. -/
structure VItem where
  vtype : String
  message : String
  field : Option String
deriving DecidableEq

/-- The `ValidationResult` class of validation.js: `isValid`, ordered `errors`
and `warnings`, and the `metadata` bag (modelled as key/value pairs). -/
structure ValidationResult where
  isValid : Bool
  errors : List VItem
  warnings : List VItem
  metadata : List (String × JSValue)

/-- `new ValidationResult()` (defaults: invalid, no errors, no warnings). -/
def ValidationResult.empty : ValidationResult := ⟨false, [], [], []⟩

/-- `ValidationResult.addError`: push an error and force `isValid = false`. -/
def ValidationResult.addError (r : ValidationResult) (t m : String) (f : Option String) :
    ValidationResult :=
  { r with errors := r.errors ++ [⟨t, m, f⟩], isValid := false }

/-- `ValidationResult.addWarning`: push a warning. -/
def ValidationResult.addWarning (r : ValidationResult) (t m : String) (f : Option String) :
    ValidationResult :=
  { r with warnings := r.warnings ++ [⟨t, m, f⟩] }

/-- `validateRequired(value, fieldName)` from validation.js. -/
def validateRequired (value : JSValue) (fieldName : String := "Field") : ValidationResult :=
  if jsIsNullUndefOrEmptyStr value then
    ValidationResult.empty.addError "REQUIRED" (fieldName ++ " is required")
      (some (jsToLower fieldName))
  else
    { ValidationResult.empty with isValid := true }

/-- The value of `text ? text.length : 0` as an optional natural number
(`none` models `undefined`, read from a truthy value with no length). -/
def jsLenVal : JSValue → Option Nat
  | .vNum n => some n.toNat
  | _ => none

/-- Comparison `a < b` where `a` may be `undefined` (always false then). -/
def optLt (a : Option Nat) (b : Nat) : Bool :=
  match a with
  | some n => n < b
  | none => false

/-- Comparison `a > b` where `a` may be `undefined` (always false then). -/
def optGt (a : Option Nat) (b : Nat) : Bool :=
  match a with
  | some n => b < n
  | none => false

/-- `validateTextLength(text, minLength, maxLength, fieldName)` from
validation.js.  `maxLength = none` models the default `Infinity`.  The float
comparison `length > maxLength * 0.9` is modelled exactly as
`10 * length > 9 * maxLength` (equivalent for all lengths in range). -/
def validateTextLength (text : JSValue) (minLength : Nat := 0)
    (maxLength : Option Nat := none) (fieldName : String := "Text") :
    Except JsErr ValidationResult := do
  let length ← (if truthy text then do
      let lv ← getField text "length"
      pure (jsLenVal lv)
    else pure (some (0 : Nat)))
  let r := ValidationResult.empty
  let r :=
    if minLength > 0 && optLt length minLength then
      r.addError "MIN_LENGTH"
        (fieldName ++ " must be at least " ++ toString minLength ++ " characters long")
        (some (jsToLower fieldName))
    else if (match maxLength with | some mx => optGt length mx | none => false) then
      r.addError "MAX_LENGTH"
        (fieldName ++ " cannot exceed " ++ toString (maxLength.getD 0) ++ " characters")
        (some (jsToLower fieldName))
    else
      { r with isValid := true }
  match maxLength, length with
  | some mx, some len =>
      if 10 * len > 9 * mx then
        pure (r.addWarning "APPROACHING_LIMIT"
          (toString ((mx : Int) - (len : Int)) ++ " characters remaining")
          (some (jsToLower fieldName)))
      else pure r
  | _, _ => pure r

/-- `validateNotWhitespaceOnly(text, fieldName)` from validation.js.  Calling
`.trim()` on a truthy non-string raises a TypeError. -/
def validateNotWhitespaceOnly (text : JSValue) (fieldName : String := "Field") :
    Except JsErr ValidationResult :=
  if truthy text then
    match text with
    | .vStr s =>
        if (jsTrim s).data.length == 0 then
          .ok (ValidationResult.empty.addError "WHITESPACE_ONLY"
            (fieldName ++ " cannot contain only whitespace") (some (jsToLower fieldName)))
        else .ok { ValidationResult.empty with isValid := true }
    | _ => .error .typeError
  else .ok { ValidationResult.empty with isValid := true }

/-- `FileValidation.RESUME_MAX_SIZE` (10MB). -/
def RESUME_MAX_SIZE : Int := 10 * 1024 * 1024

/-- `FileValidation.RESUME_ACCEPTED_TYPES`. -/
def RESUME_ACCEPTED_TYPES : List String := [".pdf", ".doc", ".docx"]

/-- `FileValidation.RESUME_MIME_TYPES`. -/
def RESUME_MIME_TYPES : List String :=
  ["application/pdf", "application/msword",
   "application/vnd.openxmlformats-officedocument.wordprocessingml.document"]

/-- Splitter mirroring `String.prototype.split(sep)` for a single-character
separator: separators delimit fields, adjacent separators produce empty
fields, and the empty string yields one empty field. -/
def splitCharsAux (p : Char → Bool) : List Char → List Char → List (List Char)
  | [], acc => [acc.reverse]
  | c :: rest, acc =>
      if p c then acc.reverse :: splitCharsAux p rest []
      else splitCharsAux p rest (c :: acc)

/-- Split a character list at every separator character. -/
def splitChars (p : Char → Bool) (l : List Char) : List (List Char) :=
  splitCharsAux p l []

/-- `name.split('.').pop()` — the last dot-separated component. -/
def splitPop (s : String) : String :=
  String.mk ((splitChars (fun c => c == '.') s.data).getLastD [])

/-- Substring test `hay.includes(sub)` (`String.prototype.includes`). -/
def listHasSub (sub : List Char) : List Char → Bool
  | [] => sub.isEmpty
  | c :: rest => sub.isPrefixOf (c :: rest) || listHasSub sub rest

/-- `hay.includes(sub)` on strings. -/
def jsIncludes (hay sub : String) : Bool := listHasSub sub.data hay.data

/-- `hay.startsWith(pre)` on strings. -/
def jsStartsWith (hay pre : String) : Bool := pre.data.isPrefixOf hay.data

/-- `hay.endsWith(suf)` on strings. -/
def jsEndsWith (hay suf : String) : Bool := suf.data.isSuffixOf hay.data

/-- Extensions of the deny-list regex
`/\.(exe|bat|cmd|scr|vbs|js|jar|com|pif|application)$/i` in `validateFile`. -/
def suspiciousExtensions : List String :=
  ["exe", "bat", "cmd", "scr", "vbs", "js", "jar", "com", "pif", "application"]

/-- The filename-charset regex `/[<>:"|?*]/` of `validateFile`. -/
def hasInvalidFilenameChar (name : String) : Bool :=
  name.data.any (fun c =>
    c == '<' || c == '>' || c == ':' || c == '"' || c == '|' || c == '?' || c == '*')

/-- The three `suspiciousPatterns` tests of `validateFile`: hidden file
(`/^\./`), executable extension (case-insensitive), invalid filename
characters. -/
def isSuspiciousFileName (name : String) : Bool :=
  jsStartsWith name "." ||
  suspiciousExtensions.any (fun e => jsEndsWith (jsToLower name) ("." ++ e)) ||
  hasInvalidFilenameChar name

/-- The message of the FILE_TOO_LARGE error.  The JS renders the file size
with `toFixed(2)`; the exact decimal rendering is abstracted as the raw
byte count, which no claim depends on. -/
def fileTooLargeMessage (size : JSValue) : String :=
  "File size (" ++ (match size with | .vNum n => toString n | _ => "?") ++
  "B) exceeds the 10MB limit. Please choose a smaller file."

/-- MIME check body of `validateFile`: runs only when `file.type` is truthy;
`some(...)` first tests `===` then calls `.startsWith`, which raises a
TypeError when `file.type` is a truthy non-string. -/
def mimeTypeCheck (typeV : JSValue) (r : ValidationResult) :
    Except JsErr ValidationResult :=
  if truthy typeV then
    match typeV with
    | .vStr t =>
        let isValidMimeType := RESUME_MIME_TYPES.any (fun m =>
          t == m ||
          jsStartsWith t (String.mk ((splitChars (fun c => c == '/') m.data).headD []) ++ "/"))
        if !isValidMimeType then
          .ok (r.addError "INVALID_FILE_TYPE"
            "File type is not supported. Please upload a valid document file." (some "file"))
        else .ok r
    | _ => .error .typeError
  else .ok r

/-- `validateFile(file)` from validation.js with the default options
(resume max size, accepted extensions and MIME types, field name "File").
A truthy file whose `name` is not a string raises a TypeError at
`file.name.split('.')`.  In the metadata, the `new Date(file.lastModified)`
wrapper is modelled as the raw `lastModified` value. -/
def validateFile (file : JSValue) : Except JsErr ValidationResult := do
  if !(truthy file) then
    return ValidationResult.empty.addError "REQUIRED" "File is required" (some "file")
  let sizeV ← getField file "size"
  let r := ValidationResult.empty
  let r :=
    if jsStrictEqZero sizeV then
      r.addError "FILE_EMPTY" "The selected file is empty. Please choose a valid file."
        (some "file")
    else if jsGtNum sizeV RESUME_MAX_SIZE then
      r.addError "FILE_TOO_LARGE" (fileTooLargeMessage sizeV) (some "file")
    else r
  let nameV ← getField file "name"
  match nameV with
  | .vStr name =>
      let fileExtension := "." ++ jsToLower (splitPop name)
      let r :=
        if !(RESUME_ACCEPTED_TYPES.contains fileExtension) then
          r.addError "INVALID_FILE_TYPE"
            ("File type \x22" ++ fileExtension ++
             "\x22 is not supported. Please upload a file in one of these formats: " ++
             String.intercalate ", " RESUME_ACCEPTED_TYPES)
            (some "file")
        else r
      let typeV ← getField file "type"
      let r ← mimeTypeCheck typeV r
      let r :=
        if name.data.length > 255 then
          r.addError "MAX_LENGTH"
            "File name is too long. Please rename your file to be shorter than 255 characters."
            (some "file")
        else r
      let r :=
        if isSuspiciousFileName name then
          r.addError "SECURITY_VIOLATION"
            "This file type is not allowed for security reasons. Please upload a document file."
            (some "file")
        else r
      if r.errors.isEmpty then
        let lastModifiedV ← getField file "lastModified"
        return { r with isValid := true,
                        metadata := [("fileName", .vStr name), ("fileSize", sizeV),
                                     ("fileType", typeV), ("fileExtension", .vStr fileExtension),
                                     ("lastModified", lastModifiedV)] }
      else return r
  | _ => .error .typeError

/-- The `importantKeywords` list of `validateJobDescription`. -/
def importantKeywords : List String :=
  ["responsibilities", "requirements", "qualifications", "experience",
   "skills", "education", "duties", "role", "position"]

/-- `trimmedText.toLowerCase().split(/\s+/)` for trimmed input: the maximal
runs of non-whitespace characters (JS merges consecutive whitespace; on
input without leading or trailing whitespace no empty fields arise). -/
def jsSplitWhitespaceRuns (s : String) : List String :=
  ((splitChars Char.isWhitespace s.data).filter (fun w => !w.isEmpty)).map String.mk

/-- First-occurrence key order of the `wordCount` object built by the
repetition check (JS object keys enumerate in insertion order). -/
def keysInOrder (seen : List String) : List String → List String
  | [] => []
  | w :: ws =>
      if seen.contains w then keysInOrder seen ws
      else w :: keysInOrder (w :: seen) ws

/-- The `repeatedWords` computation of `validateJobDescription`: words longer
than 3 characters occurring in more than 5% of all tokens.  The float
comparison `count > words.length * 0.05` is modelled exactly as
`20 * count > words.length`. -/
def repeatedWords (words : List String) : List String :=
  let longWords := words.filter (fun w => w.data.length > 3)
  (keysInOrder [] longWords).filter (fun w => 20 * (longWords.count w) > words.length)

/-- The three content-quality warnings of `validateJobDescription` (short
content, missing keywords, repetition), applied to the result accumulated so
far; runs only when the trimmed text is nonempty. -/
def jobDescriptionContentChecks (r : ValidationResult) (trimmedText : String) :
    ValidationResult :=
  let r :=
    if trimmedText.data.length < 100 then
      r.addWarning "SHORT_CONTENT"
        "Job description is quite short - consider adding more details for better analysis"
        (some "job_description")
    else r
  let foundKeywords := importantKeywords.filter (fun k => jsIncludes (jsToLower trimmedText) k)
  let r :=
    if foundKeywords.length < 3 then
      r.addWarning "INCOMPLETE_CONTENT"
        "Consider including more details about responsibilities, requirements, and qualifications"
        (some "job_description")
    else r
  let words := jsSplitWhitespaceRuns (jsToLower trimmedText)
  let rep := repeatedWords words
  if rep.length > 0 then
    r.addWarning "REPETITIVE_CONTENT"
      ("Some words appear frequently: " ++ String.intercalate ", " (rep.take 3) ++
       ". Consider varying your language.")
      (some "job_description")
  else r

/-- `validateJobDescription(text)` from validation.js: merges the required,
whitespace-only and length results, then adds content-quality warnings.
The merged `errors` keep the source order (required, whitespace, length);
`warnings` start from the length warnings only.  `isValid` is recomputed at
the end as `errors.length === 0`.  A truthy non-string raises a TypeError
inside `validateNotWhitespaceOnly` (`text.trim` is not a function). -/
def validateJobDescription (text : JSValue) : Except JsErr ValidationResult := do
  let requiredResult := validateRequired text "Job description"
  let whitespaceResult ← validateNotWhitespaceOnly text "Job description"
  let lengthResult ← validateTextLength text 50 (some 10000) "Job description"
  let r : ValidationResult :=
    { ValidationResult.empty with
      errors := requiredResult.errors ++ whitespaceResult.errors ++ lengthResult.errors,
      warnings := lengthResult.warnings }
  let r ← (match text with
    | .vStr s =>
        if jsTrim s != "" then pure (jobDescriptionContentChecks r (jsTrim s))
        else pure r
    | t => if truthy t then (.error .typeError : Except JsErr ValidationResult) else pure r)
  return { r with isValid := r.errors.isEmpty }

/-- First replacement of `sanitizeText`: `.replace(/[<>]/g, '')`. -/
def removeAngleBrackets (l : List Char) : List Char :=
  l.filter (fun c => !(c == '<' || c == '>'))

/-- Global case-insensitive replacement of a fixed nonempty pattern by the
empty string (`.replace(/pat/gi, '')`): one left-to-right pass removing
non-overlapping occurrences.  The pattern is `p0 :: ps`, given lowercase.
On a match the scanner emits nothing and skips the matched characters;
`skip` counts matched characters still to be consumed one at a time, which
keeps the recursion structural. -/
def removeAllCIAux (p0 : Char) (ps : List Char) : Nat → List Char → List Char
  | skip + 1, _ :: rest => removeAllCIAux p0 ps skip rest
  | _, [] => []
  | 0, c :: rest =>
      if ((c :: rest).take (p0 :: ps).length).map Char.toLower == p0 :: ps then
        removeAllCIAux p0 ps ps.length rest
      else c :: removeAllCIAux p0 ps 0 rest

/-- The full scan of `.replace(/pat/gi, '')` for the pattern `p0 :: ps`. -/
def removeAllCI (p0 : Char) (ps : List Char) (l : List Char) : List Char :=
  removeAllCIAux p0 ps 0 l

/-- Whether `c` matches the regex class `\w` (`[A-Za-z0-9_]`).  `Char.isAlpha`
and `Char.isDigit` test exactly the ASCII ranges. -/
def isWordChar (c : Char) : Bool := c.isAlpha || c.isDigit || c == '_'

/-- Replacement `.replace(/on\w+=/gi, '')` of `sanitizeText`: one
left-to-right pass.  At each position the regex matches iff the next two
characters are `on` (case-insensitive), followed by a nonempty run of word
characters, followed by `=` (the greedy `\w+` cannot backtrack into a match
because `=` is not a word character).  As in `removeAllCIAux`, `skip`
consumes the matched characters one at a time. -/
def removeOnHandlersAux : Nat → List Char → List Char
  | skip + 1, _ :: rest => removeOnHandlersAux skip rest
  | _, [] => []
  | 0, c1 :: rest =>
      match rest with
      | [] => [c1]
      | c2 :: rest2 =>
          if c1.toLower == 'o' && c2.toLower == 'n' then
            match rest2.drop ((rest2.takeWhile isWordChar).length) with
            | '=' :: _ =>
                if (rest2.takeWhile isWordChar).length > 0 then
                  removeOnHandlersAux ((rest2.takeWhile isWordChar).length + 2) rest
                else c1 :: removeOnHandlersAux 0 rest
            | _ => c1 :: removeOnHandlersAux 0 rest
          else c1 :: removeOnHandlersAux 0 rest

/-- The full scan of `.replace(/on\w+=/gi, '')`. -/
def removeOnHandlers (l : List Char) : List Char :=
  removeOnHandlersAux 0 l

/-- String form of the `sanitizeText` pipeline for nonempty string input:
remove `<`/`>`, remove `javascript:` (case-insensitive), remove `on\w+=`
event-handler patterns, then trim. -/
def sanitizeTextStr (s : String) : String :=
  String.mk (jsTrimList (removeOnHandlers
    (removeAllCI 'j' "avascript:".data (removeAngleBrackets s.data))))

/-- `sanitizeText(text)` from validation.js: falsy or non-string input maps
to the empty string, otherwise the replacement pipeline runs. -/
def sanitizeText (text : JSValue) : JSValue :=
  match text with
  | .vStr s => if s == "" then .vStr "" else .vStr (sanitizeTextStr s)
  | _ => .vStr ""

/-- Options of `useFormValidation` relevant to value storage; the source
defaults are `sanitizeInputs = true`. -/
structure FormOptions where
  validateOnChange : Bool := true
  validateOnBlur : Bool := true
  sanitizeInputs : Bool := true
  debounceDelay : Nat := 300

/-- The source defaults of `useFormValidation`. -/
def defaultFormOptions : FormOptions := {}

/-- `typeof value === 'string'`. -/
def isStringV : JSValue → Bool
  | .vStr _ => true
  | _ => false

/-- The `sanitizedValue` computation shared by `handleChange` and
`setFieldValue`: `sanitizeInputs && typeof value === 'string' ?
sanitizeText(value) : value`. -/
def sanitizedInput (opts : FormOptions) (value : JSValue) : JSValue :=
  if opts.sanitizeInputs && isStringV value then sanitizeText value else value

/-- Object spread update `{...prev, [k]: v}` on a key/value list without
duplicate keys: an existing key keeps its position, a new key is appended. -/
def setKey : List (String × JSValue) → String → JSValue → List (String × JSValue)
  | [], k, v => [(k, v)]
  | (k0, v0) :: rest, k, v =>
      if k0 == k then (k0, v) :: rest else (k0, v0) :: setKey rest k v

/-- The `values` update performed by `handleChange(fieldName, value)` of
useFormValidation.js (the accompanying error clearing and debounced
validation do not affect stored values). -/
def handleChangeValues (opts : FormOptions) (values : List (String × JSValue))
    (fieldName : String) (value : JSValue) : List (String × JSValue) :=
  setKey values fieldName (sanitizedInput opts value)

/-- The `values` update performed by `setFieldValue(fieldName, value)` of
useFormValidation.js. -/
def setFieldValueValues (opts : FormOptions) (values : List (String × JSValue))
    (fieldName : String) (value : JSValue) : List (String × JSValue) :=
  setKey values fieldName (sanitizedInput opts value)

/-- The result shape produced by `transformAnalysisData` in App.jsx:
`{compatibilityScore, missingSkills, topRecommendations}`. -/
structure TransformedResults where
  compatibilityScore : JSValue
  missingSkills : JSValue
  topRecommendations : JSValue

/-- Short-circuiting `a || rest`: the right operand is only evaluated (and can
only throw) when `a` is falsy. -/
def jsOrF (a : JSValue) (rest : Except JsErr JSValue) : Except JsErr JSValue :=
  if truthy a then .ok a else rest

/-- `transformAnalysisData(backendData)` from App.jsx: reads
`backendData.analysis_data || {}` and builds the frontend result with
`||`-chained fallbacks (`compatibility_score || ... || 0`,
`missing_skills || gaps || []`, `recommendations || suggestions || []`). -/
def transformAnalysisData (backendData : JSValue) : Except JsErr TransformedResults := do
  let ad ← getField backendData "analysis_data"
  let analysisData := jsOr ad (.vObj [])
  let compatibilityScore ← (do
    let a ← getField backendData "compatibility_score"
    jsOrF a (do
      let b ← getField analysisData "compatibility_score"
      pure (jsOr b (.vNum 0))))
  let missingSkills ← (do
    let a ← getField analysisData "missing_skills"
    jsOrF a (do
      let b ← getField analysisData "gaps"
      pure (jsOr b (.vArr []))))
  let topRecommendations ← (do
    let a ← getField analysisData "recommendations"
    jsOrF a (do
      let b ← getField analysisData "suggestions"
      pure (jsOr b (.vArr []))))
  return ⟨compatibilityScore, missingSkills, topRecommendations⟩

/-- The `ApiError` class of services/api.js: message, HTTP status and the
details bag (modelled as integer-valued keys, which covers the
`{maxAttempts, intervalMs}` details of the timeout error). -/
structure ApiErrorV where
  message : String
  status : Int
  details : List (String × Int)
deriving DecidableEq

/-- Outcome of one `getAnalysis(analysisId)` call awaited by `pollAnalysis`:
either the parsed JSON body or a rejection with an `ApiError`. -/
inductive GetAnalysisOutcome where
  | success (result : JSValue)
  | failure (err : ApiErrorV)

/-- An exception propagating out of `pollAnalysis`: a rethrown `ApiError` or
a TypeError raised by the completion test inside the try block. -/
inductive ThrownError where
  | api (e : ApiErrorV)
  | typeError

/-- The completion test of `pollAnalysis`:
`result.analysis_data && result.analysis_data.status !== 'processing' &&
result.analysis_data.status !== 'pending'`.  Property access on a null
result throws inside the try block. -/
def terminalCheck (result : JSValue) : Except JsErr Bool := do
  let ad ← getField result "analysis_data"
  if truthy ad then do
    let st ← getField ad "status"
    pure (!(jsStrictEqStr st "processing") && !(jsStrictEqStr st "pending"))
  else pure false

/-- The timeout error thrown by `pollAnalysis` when all attempts are used:
`new ApiError('Analysis timed out', 408, { maxAttempts, intervalMs })`. -/
def pollTimeoutError (maxAttempts intervalMs : Nat) : ApiErrorV :=
  ⟨"Analysis timed out", 408, [("maxAttempts", maxAttempts), ("intervalMs", intervalMs)]⟩

/-- The loop of `pollAnalysis` from services/api.js.  `responses i` is the
outcome of the `getAnalysis` call made on attempt `i`; `fuel` counts the
remaining iterations (`fuel = maxAttempts - attempt` at every call, so the
loop guard `attempt < maxAttempts` is exactly `fuel > 0`).  A non-terminal
success continues; a caught error continues only when
`error.status === 404 && attempt < maxAttempts - 1`, otherwise it is
rethrown; exhausting the loop throws the timeout `ApiError`. -/
def pollLoop (responses : Nat → GetAnalysisOutcome) (maxAttempts intervalMs : Nat) :
    Nat → Nat → Except ThrownError JSValue
  | _attempt, 0 => .error (.api (pollTimeoutError maxAttempts intervalMs))
  | attempt, fuel + 1 =>
      match responses attempt with
      | .success result =>
          match terminalCheck result with
          | .ok true => .ok result
          | .ok false => pollLoop responses maxAttempts intervalMs (attempt + 1) fuel
          | .error _ => .error .typeError
      | .failure err =>
          if err.status == 404 && attempt < maxAttempts - 1 then
            pollLoop responses maxAttempts intervalMs (attempt + 1) fuel
          else .error (.api err)

/-- `pollAnalysis(analysisId, maxAttempts = 30, intervalMs = 2000)`; the
`analysisId` is absorbed into the response oracle. -/
def pollAnalysis (responses : Nat → GetAnalysisOutcome)
    (maxAttempts : Nat := 30) (intervalMs : Nat := 2000) : Except ThrownError JSValue :=
  pollLoop responses maxAttempts intervalMs 0 maxAttempts

/-- Number of `getAnalysis` requests issued by the `pollAnalysis` loop: one
per executed iteration, mirroring the recursion of `pollLoop`. -/
def pollCallsLoop (responses : Nat → GetAnalysisOutcome) (maxAttempts : Nat) :
    Nat → Nat → Nat
  | _attempt, 0 => 0
  | attempt, fuel + 1 =>
      match responses attempt with
      | .success result =>
          match terminalCheck result with
          | .ok true => 1
          | .ok false => 1 + pollCallsLoop responses maxAttempts (attempt + 1) fuel
          | .error _ => 1
      | .failure err =>
          if err.status == 404 && attempt < maxAttempts - 1 then
            1 + pollCallsLoop responses maxAttempts (attempt + 1) fuel
          else 1

/-- Number of `getAnalysis` requests issued by a full `pollAnalysis` run. -/
def pollCalls (responses : Nat → GetAnalysisOutcome) (maxAttempts : Nat := 30) : Nat :=
  pollCallsLoop responses maxAttempts 0 maxAttempts

/-- The fields of a `getAnalysisProgress` response body read by the polling
callback of `useAnalysis` (useApi.js): `status`, `progress_percentage`,
`current_step`, `error_message` (`none` models an absent or empty message). -/
structure ProgressSnapshot where
  status : String
  progressPercentage : Int
  currentStep : String
  errorMessage : Option String

/-- Observable state of the `useAnalysis` hook (useApi.js): the React state
cells, whether the `setInterval` handle is still scheduled, and how many
`getAnalysisProgress` / `getAnalysisResult` calls are outstanding.  The
single-threaded event loop is modelled by interleaving `PollEvent`s. -/
structure AnalysisHookState where
  analyzing : Bool
  progress : Int
  currentStep : String
  errorMsg : Option String
  result : Option JSValue
  intervalActive : Bool
  inflightProgress : Nat
  inflightResult : Nat

/-- Scheduler events driving the `useAnalysis` polling loop: an interval
tick (which starts the async callback and issues `getAnalysisProgress`),
the settlement of an outstanding progress or result call, and an external
`cancelAnalysis()` invocation. -/
inductive PollEvent where
  | tick
  | progressResponse (out : Except String ProgressSnapshot)
  | resultResponse (out : Except String JSValue)
  | cancel

/-- One step of the `useAnalysis` loop.  Translated from useApi.js lines
172-229: a tick fires only while the interval is scheduled and immediately
awaits `getAnalysisProgress`; a settled progress call first applies
`setProgress`/`setCurrentStep`, then on `completed` clears the interval and
awaits `getAnalysisResult`, on `failed` clears the interval and records the
error (the thrown ANALYSIS_FAILED error is caught by the callback's own
catch), otherwise just returns; a settled result call stores the result; a
rejected call is caught, clears the interval and records the error;
`cancelAnalysis()` clears the interval and resets `analyzing`, `progress`
and `currentStep`.  A settlement event with no outstanding call of that
kind is a no-op (no such event can occur).  Nothing marks in-flight calls
stale: their settlements still apply after `cancel`. -/
def stepAnalysis (s : AnalysisHookState) : PollEvent → AnalysisHookState
  | .tick =>
      if s.intervalActive then { s with inflightProgress := s.inflightProgress + 1 } else s
  | .progressResponse out =>
      if s.inflightProgress == 0 then s
      else
        let s := { s with inflightProgress := s.inflightProgress - 1 }
        match out with
        | .error msg => { s with intervalActive := false, analyzing := false,
                                 errorMsg := some msg }
        | .ok snap =>
            let s := { s with progress := snap.progressPercentage,
                              currentStep := snap.currentStep }
            if snap.status == "completed" then
              { s with intervalActive := false, inflightResult := s.inflightResult + 1 }
            else if snap.status == "failed" then
              { s with intervalActive := false, analyzing := false,
                       errorMsg := some (snap.errorMessage.getD "Analysis failed") }
            else s
  | .resultResponse out =>
      if s.inflightResult == 0 then s
      else
        let s := { s with inflightResult := s.inflightResult - 1 }
        match out with
        | .ok finalResult => { s with result := some finalResult, analyzing := false }
        | .error msg => { s with intervalActive := false, analyzing := false,
                                 errorMsg := some msg }
  | .cancel =>
      { s with intervalActive := false, analyzing := false, progress := 0, currentStep := "" }

/-- Run a sequence of scheduler events. -/
def runEvents (s : AnalysisHookState) (evs : List PollEvent) : AnalysisHookState :=
  evs.foldl stepAnalysis s

/-- The hook state right after `startAnalysis` succeeded and the interval was
scheduled (useApi.js lines 160-209): analyzing, zero progress, the initial
step label, no error or result, interval active, nothing in flight. -/
def startAnalysisState : AnalysisHookState :=
  { analyzing := true, progress := 0, currentStep := "Starting analysis...",
    errorMsg := none, result := none, intervalActive := true,
    inflightProgress := 0, inflightResult := 0 }

/-- Modelled from the spec: the `API_ERROR_CODES` constants of
frontend/src/services/api.js (the module defining `apiService`, which is not
part of the sources; only its consumer useApi.js is).  The spec's error
taxonomy (§4.3, §7) and the members referenced by useApi.js give the code
set; each code is a distinct constant. -/
inductive ApiErrorCode where
  | NETWORK_ERROR
  | TIMEOUT
  | RATE_LIMITED
  | SERVER_ERROR
  | BAD_GATEWAY
  | SERVICE_UNAVAILABLE
  | VALIDATION_ERROR
  | UNKNOWN_ERROR
deriving DecidableEq

/-- An error value tested by `isRetryableError`: its `code` property may be
absent (`none` models `undefined`). -/
structure ApiCallError where
  code : Option ApiErrorCode
  message : Option String
deriving DecidableEq

/-- The `retryableCodes` list of `isRetryableError` (useApi.js lines
360-366): NETWORK_ERROR, TIMEOUT, SERVER_ERROR, BAD_GATEWAY,
SERVICE_UNAVAILABLE — RATE_LIMITED is not among them. -/
def retryableCodes : List ApiErrorCode :=
  [.NETWORK_ERROR, .TIMEOUT, .SERVER_ERROR, .BAD_GATEWAY, .SERVICE_UNAVAILABLE]

/-- `isRetryableError(error)` from useApi.js: false for a null error,
otherwise `retryableCodes.includes(error.code)` (an absent code is not in
the list). -/
def isRetryableError (error : Option ApiCallError) : Bool :=
  match error with
  | none => false
  | some e =>
      match e.code with
      | some c => retryableCodes.contains c
      | none => false

/-! Helper lemmas. -/

theorem getField_isOk (v : JSValue) (k : String) (h1 : v ≠ .vNull) (h2 : v ≠ .vUndefined) :
    ∃ w, getField v k = .ok w := by
  cases v with
  | vNull => exact absurd rfl h1
  | vUndefined => exact absurd rfl h2
  | vStr s => simp only [getField]; split <;> exact ⟨_, rfl⟩
  | vArr xs => simp only [getField]; split <;> exact ⟨_, rfl⟩
  | vBool b => exact ⟨_, rfl⟩
  | vNum n => exact ⟨_, rfl⟩
  | vObj fields => exact ⟨_, rfl⟩

theorem getField_obj (fields : List (String × JSValue)) (k : String) :
    getField (.vObj fields) k = .ok (objLookup fields k) := rfl

theorem ite_ok {ε α : Type} (c : Prop) [Decidable c] (a b : α) :
    (if c then (Except.ok a : Except ε α) else .ok b) = .ok (if c then a else b) :=
  (apply_ite Except.ok c a b).symm

theorem jsOr_obj_getField_isOk (v : JSValue) (k : String) :
    ∃ w, getField (jsOr v (.vObj [])) k = .ok w := by
  unfold jsOr
  split
  · next h =>
      apply getField_isOk <;> (intro hv; subst hv; simp [truthy] at h)
  · exact ⟨_, rfl⟩

theorem pollLoop_skip404 (responses : Nat → GetAnalysisOutcome) (maxA im : Nat) :
    ∀ n attempt fuel,
      (∀ i, i < n → ∃ e, responses (attempt + i) = .failure e ∧ e.status = 404) →
      attempt + n < maxA → attempt + fuel = maxA →
      pollLoop responses maxA im attempt fuel =
        pollLoop responses maxA im (attempt + n) (fuel - n) := by
  intro n
  induction n with
  | zero => intro attempt fuel _ _ _; simp
  | succ m ih =>
      intro attempt fuel h hlt hfuel
      obtain ⟨f, rfl⟩ : ∃ f, fuel = f + 1 := ⟨fuel - 1, by omega⟩
      obtain ⟨e, he, he404⟩ := h 0 (by omega)
      simp only [Nat.add_zero] at he
      have hcond : (e.status == 404 && decide (attempt < maxA - 1)) = true := by
        simp [he404]; omega
      have hstep : pollLoop responses maxA im attempt (f + 1) =
          pollLoop responses maxA im (attempt + 1) f := by
        simp only [pollLoop, he, hcond, if_true]
      rw [hstep, ih (attempt + 1) f (fun i hi => by
            have := h (i + 1) (by omega)
            simpa [Nat.add_assoc, Nat.add_comm 1 i] using this)
          (by omega) (by omega)]
      congr 1 <;> omega

theorem pollLoop_timeout (responses : Nat → GetAnalysisOutcome) (maxA im : Nat)
    (h : ∀ i, i < maxA → ∃ r, responses i = .success r ∧ terminalCheck r = .ok false) :
    ∀ fuel attempt, attempt + fuel = maxA →
      pollLoop responses maxA im attempt fuel = .error (.api (pollTimeoutError maxA im)) ∧
      pollCallsLoop responses maxA attempt fuel = fuel := by
  intro fuel
  induction fuel with
  | zero => intro attempt _; exact ⟨rfl, rfl⟩
  | succ f ih =>
      intro attempt hfuel
      obtain ⟨r, hr, ht⟩ := h attempt (by omega)
      have := ih (attempt + 1) (by omega)
      constructor
      · simp only [pollLoop, hr, ht]
        exact this.1
      · simp only [pollCallsLoop, hr, ht]
        omega

theorem pollCallsLoop_le (responses : Nat → GetAnalysisOutcome) (maxA : Nat) :
    ∀ fuel attempt, pollCallsLoop responses maxA attempt fuel ≤ fuel := by
  intro fuel
  induction fuel with
  | zero => intro attempt; exact Nat.le_refl 0
  | succ f ih =>
      intro attempt
      cases hresp : responses attempt with
      | success r =>
          cases ht : terminalCheck r with
          | ok b =>
              cases b <;> simp only [pollCallsLoop, hresp, ht] <;>
                first
                | omega
                | (have hk := ih (attempt + 1); omega)
          | error e => simp only [pollCallsLoop, hresp, ht]; omega
      | failure e =>
          simp only [pollCallsLoop, hresp]
          split
          · have := ih (attempt + 1); omega
          · omega

/-! Claim C1. -/

/-- C1 counterexample: the claim that `transformAnalysisData` never throws and
clamps the overall score to [0,100] is false on the code: a payload with
`compatibility_score = 150` is passed through unclamped, and a null payload
throws a TypeError. -/
theorem c1_transform_counterexample :
    transformAnalysisData (.vObj [("compatibility_score", .vNum 150)]) =
      .ok ⟨.vNum 150, .vArr [], .vArr []⟩ ∧
    ¬ ((150 : Int) ≤ 100) ∧
    transformAnalysisData .vNull = .error .typeError :=
  ⟨rfl, by decide, rfl⟩

/-- C1 (amended): for every object payload, `transformAnalysisData` returns a
report without throwing; a missing `analysis_data`, score and collections
default to `{}`, `0`, `[]` and `[]` respectively.  No clamping of any score
is performed (see the counterexample) and no confidence field exists. -/
theorem c1_transform_total_on_objects :
    (∀ fields : List (String × JSValue), ∃ r, transformAnalysisData (.vObj fields) = .ok r) ∧
    transformAnalysisData (.vObj []) = .ok ⟨.vNum 0, .vArr [], .vArr []⟩ := by
  constructor
  · intro fields
    obtain ⟨w1, hw1⟩ := jsOr_obj_getField_isOk (objLookup fields "analysis_data")
      "compatibility_score"
    obtain ⟨w2, hw2⟩ := jsOr_obj_getField_isOk (objLookup fields "analysis_data")
      "missing_skills"
    obtain ⟨w3, hw3⟩ := jsOr_obj_getField_isOk (objLookup fields "analysis_data") "gaps"
    obtain ⟨w4, hw4⟩ := jsOr_obj_getField_isOk (objLookup fields "analysis_data")
      "recommendations"
    obtain ⟨w5, hw5⟩ := jsOr_obj_getField_isOk (objLookup fields "analysis_data") "suggestions"
    simp only [transformAnalysisData, bind, Except.bind, pure, Except.pure, jsOrF,
      getField_obj, hw1, hw2, hw3, hw4, hw5]
    simp only [ite_ok]
    exact ⟨_, rfl⟩
  · rfl

/-! Claim C2. -/

/-- C2 counterexample: a polling sequence whose first status response carries
`status = failed` is returned by `pollAnalysis` as a successful result — the
job does not end in a failed state with the response discarded. -/
theorem c2_poll_failed_counterexample :
    pollAnalysis (fun _ => .success
        (.vObj [("analysis_data", .vObj [("status", .vStr "failed")])])) =
      .ok (.vObj [("analysis_data", .vObj [("status", .vStr "failed")])]) ∧
    ∀ e, pollAnalysis (fun _ => .success
        (.vObj [("analysis_data", .vObj [("status", .vStr "failed")])])) ≠ .error e :=
  ⟨rfl, fun _ h => Except.noConfusion h⟩

/-- C2 (amended): `pollAnalysis` treats every response whose `analysis_data`
is truthy and whose status is neither `processing` nor `pending` — including
`status = failed` — as terminal and returns it as a successful result;
`handleAnalyze` then renders it instead of moving to a failed state. -/
theorem c2_poll_returns_any_terminal :
    (∀ (responses : Nat → GetAnalysisOutcome) (r : JSValue),
      responses 0 = .success r → terminalCheck r = .ok true →
      pollAnalysis responses = .ok r) ∧
    terminalCheck (.vObj [("analysis_data", .vObj [("status", .vStr "failed")])]) = .ok true := by
  constructor
  · intro responses r h0 hterm
    unfold pollAnalysis
    show pollLoop responses 30 2000 0 (29 + 1) = .ok r
    simp only [pollLoop, h0, hterm]
  · rfl

/-- C2 witness: the amended theorem applied to a concrete failed-status
response sequence. -/
theorem c2_poll_returns_any_terminal_witness :
    pollAnalysis (fun _ => .success (.vObj [("id", .vNum 7),
        ("analysis_data", .vObj [("status", .vStr "failed"), ("error", .vStr "boom")])])) =
      .ok (.vObj [("id", .vNum 7),
        ("analysis_data", .vObj [("status", .vStr "failed"), ("error", .vStr "boom")])]) :=
  c2_poll_returns_any_terminal.1 _ _ rfl rfl

/-! Claim C5. -/

/-- C5 counterexample: four consecutive 404 responses do not promote the job
to a failed state — polling continues and a later terminal response is still
returned successfully, contradicting the claimed 3-occurrence tolerance. -/
theorem c5_404_counterexample :
    pollAnalysis (fun i => if i < 4 then .failure ⟨"Not found", 404, []⟩
      else .success (.vObj [("analysis_data", .vObj [("status", .vStr "completed")])])) =
    .ok (.vObj [("analysis_data", .vObj [("status", .vStr "completed")])]) := rfl

/-- C5 (amended): a 404 on the status poll is tolerated on every attempt
except the last: any run of up to 29 consecutive 404s followed by a terminal
response still succeeds, and only when every one of the 30 attempts fails
with 404 is the error rethrown (from the final attempt). -/
theorem c5_404_tolerated_until_last :
    (∀ (responses : Nat → GetAnalysisOutcome) (n : Nat) (r : JSValue),
      n ≤ 29 →
      (∀ i, i < n → ∃ e, responses i = .failure e ∧ e.status = 404) →
      responses n = .success r → terminalCheck r = .ok true →
      pollAnalysis responses = .ok r) ∧
    (∀ (responses : Nat → GetAnalysisOutcome) (e : ApiErrorV),
      e.status = 404 →
      (∀ i, i < 30 → responses i = .failure e) →
      pollAnalysis responses = .error (.api e)) := by
  constructor
  · intro responses n r hn h404 hsucc hterm
    unfold pollAnalysis
    rw [pollLoop_skip404 responses 30 2000 n 0 30
      (fun i hi => by simpa using h404 i hi) (by omega) (by omega)]
    obtain ⟨k, hk⟩ : ∃ k, 30 - n = k + 1 := ⟨29 - n, by omega⟩
    simp only [Nat.zero_add, hk, pollLoop, hsucc, hterm]
  · intro responses e he404 hall
    unfold pollAnalysis
    rw [pollLoop_skip404 responses 30 2000 29 0 30
      (fun i hi => ⟨e, by simpa using hall i (by omega), he404⟩) (by omega) (by omega)]
    have h29 : responses 29 = .failure e := hall 29 (by omega)
    have hcond : (e.status == 404 && decide ((29 : Nat) < 30 - 1)) = false := by
      simp
    simp only [Nat.zero_add, show (30 : Nat) - 29 = 0 + 1 from rfl, pollLoop, h29, hcond,
      Bool.false_eq_true, if_false]

/-- C5 witness: the amended theorem applied to five consecutive 404s followed
by a terminal response. -/
theorem c5_404_tolerated_until_last_witness :
    pollAnalysis (fun i => if i < 5 then .failure ⟨"Not found", 404, []⟩
      else .success (.vObj [("analysis_data", .vObj [("status", .vStr "completed"),
        ("score", .vNum 80)])])) =
    .ok (.vObj [("analysis_data", .vObj [("status", .vStr "completed"),
      ("score", .vNum 80)])]) :=
  c5_404_tolerated_until_last.1 _ 5 _ (by omega)
    (fun i hi => ⟨⟨"Not found", 404, []⟩, by simp [hi], rfl⟩) (by simp) rfl

/-! Claim C6. -/

/-- C6: thirty consecutive non-terminal (processing/pending) status responses
exhaust the attempt budget: `pollAnalysis` issues exactly 30 `getAnalysis`
requests (and never more than 30 on any input) and then throws the timeout
`ApiError` (`'Analysis timed out'`, HTTP 408) instead of returning a result. -/
theorem c6_poll_timeout_after_30 (responses : Nat → GetAnalysisOutcome)
    (h : ∀ i, i < 30 → ∃ r, responses i = .success r ∧ terminalCheck r = .ok false) :
    pollAnalysis responses =
      .error (.api ⟨"Analysis timed out", 408, [("maxAttempts", 30), ("intervalMs", 2000)]⟩) ∧
    pollCalls responses = 30 ∧
    ∀ rs : Nat → GetAnalysisOutcome, pollCalls rs ≤ 30 := by
  refine ⟨(pollLoop_timeout responses 30 2000 h 30 0 (by omega)).1,
    (pollLoop_timeout responses 30 2000 h 30 0 (by omega)).2,
    fun rs => pollCallsLoop_le rs 30 30 0⟩

/-- C6 witness: the theorem applied to the constant `processing` response
sequence. -/
theorem c6_poll_timeout_after_30_witness :
    pollAnalysis (fun _ => .success
        (.vObj [("analysis_data", .vObj [("status", .vStr "processing")])])) =
      .error (.api ⟨"Analysis timed out", 408,
        [("maxAttempts", 30), ("intervalMs", 2000)]⟩) ∧
    pollCalls (fun _ => .success
        (.vObj [("analysis_data", .vObj [("status", .vStr "processing")])])) = 30 := by
  have h := c6_poll_timeout_after_30
    (fun _ => .success (.vObj [("analysis_data", .vObj [("status", .vStr "processing")])]))
    (fun i _ => ⟨_, rfl, rfl⟩)
  exact ⟨h.1, h.2.1⟩

/-! Claim C3. -/

/-- C3 counterexample: after `cancelAnalysis` the progress of the job is 0,
yet the settlement of a `getAnalysisProgress` call issued before the
cancellation is still applied — the progress becomes 42 — and a late
`completed` response even leads to the result being set.  Late responses are
not discarded. -/
theorem c3_cancel_counterexample :
    (runEvents startAnalysisState [.tick, .cancel]).progress = 0 ∧
    (runEvents startAnalysisState [.tick, .cancel,
      .progressResponse (.ok ⟨"processing", 42, "Analyzing resume", none⟩)]).progress = 42 ∧
    (runEvents startAnalysisState [.tick, .cancel,
      .progressResponse (.ok ⟨"processing", 42, "Analyzing resume", none⟩)]).currentStep =
      "Analyzing resume" ∧
    (runEvents startAnalysisState [.tick, .cancel,
      .progressResponse (.ok ⟨"completed", 100, "Done", none⟩),
      .resultResponse (.ok (.vStr "final report"))]).result = some (.vStr "final report") :=
  ⟨rfl, rfl, rfl, rfl⟩

/-- C3 (amended): `cancelAnalysis` clears the interval, so no further tick
issues a request and the cancelled state has progress 0; but a response to a
progress request already in flight at cancellation time is still applied —
its progress percentage and step label overwrite the cancelled state.  The
code has no staleness guard for in-flight requests. -/
theorem c3_cancel_stops_ticks_but_not_inflight :
    (∀ s, (stepAnalysis s .cancel).intervalActive = false ∧
          (stepAnalysis s .cancel).progress = 0 ∧
          (stepAnalysis s .cancel).analyzing = false) ∧
    (∀ s, s.intervalActive = false → stepAnalysis s .tick = s) ∧
    (∀ s snap, 0 < s.inflightProgress →
      (stepAnalysis (stepAnalysis s .cancel) (.progressResponse (.ok snap))).progress =
        snap.progressPercentage ∧
      (stepAnalysis (stepAnalysis s .cancel) (.progressResponse (.ok snap))).currentStep =
        snap.currentStep) := by
  refine ⟨fun s => ⟨rfl, rfl, rfl⟩, fun s h => by simp [stepAnalysis, h], ?_⟩
  intro s snap hpos
  have hne : (s.inflightProgress == 0) = false := by
    simp; omega
  constructor <;>
    · simp only [stepAnalysis, hne, Bool.false_eq_true, if_false]
      split <;> (simp; try (split <;> simp))

/-- C3 witness: the amended theorem applied to the state with one in-flight
progress request. -/
theorem c3_cancel_stops_ticks_but_not_inflight_witness :
    (stepAnalysis (stepAnalysis (stepAnalysis startAnalysisState .tick) .cancel)
      (.progressResponse (.ok ⟨"processing", 55, "Scoring", none⟩))).progress = 55 ∧
    stepAnalysis (stepAnalysis startAnalysisState .cancel) .tick =
      stepAnalysis startAnalysisState .cancel :=
  ⟨(c3_cancel_stops_ticks_but_not_inflight.2.2 (stepAnalysis startAnalysisState .tick)
      ⟨"processing", 55, "Scoring", none⟩ (by decide)).1,
   c3_cancel_stops_ticks_but_not_inflight.2.1 (stepAnalysis startAnalysisState .cancel) rfl⟩

/-! Claim C4. -/

/-- C4 counterexample: two interval ticks with no settlement in between leave
two `getAnalysisProgress` calls outstanding at once — the claimed bound of
at most one outstanding call per job is violated, and ticks are not
skipped. -/
theorem c4_two_outstanding_counterexample :
    (runEvents startAnalysisState [.tick, .tick]).inflightProgress = 2 ∧ ¬ (2 ≤ 1) :=
  ⟨rfl, by decide⟩

/-- C4 (amended): while the interval is active, every tick issues a new
`getAnalysisProgress` request regardless of how many are already in flight:
after n ticks with no settlements, n requests are outstanding.  Ticks are
neither skipped nor queued behind an unresolved call. -/
theorem c4_every_tick_issues_request :
    (∀ s, s.intervalActive = true →
      (stepAnalysis s .tick).inflightProgress = s.inflightProgress + 1) ∧
    (∀ n, (runEvents startAnalysisState (List.replicate n .tick)).inflightProgress = n) := by
  constructor
  · intro s h
    simp [stepAnalysis, h]
  · have key : ∀ n (s : AnalysisHookState), s.intervalActive = true →
        (runEvents s (List.replicate n .tick)).inflightProgress = s.inflightProgress + n := by
      intro n
      induction n with
      | zero => intro s _; simp [runEvents]
      | succ m ih =>
          intro s h
          have hstep : stepAnalysis s .tick = { s with inflightProgress := s.inflightProgress + 1 } := by
            simp [stepAnalysis, h]
          calc (runEvents s (List.replicate (m + 1) .tick)).inflightProgress
              = (runEvents (stepAnalysis s .tick) (List.replicate m .tick)).inflightProgress := by
                simp [runEvents, List.replicate_succ]
            _ = s.inflightProgress + 1 + m := by
                rw [hstep, ih { s with inflightProgress := s.inflightProgress + 1 } h]
            _ = s.inflightProgress + (m + 1) := by omega
    intro n
    have := key n startAnalysisState rfl
    simpa [startAnalysisState] using this

/-- C4 witness: the amended theorem applied to the freshly started state and
to three consecutive ticks. -/
theorem c4_every_tick_issues_request_witness :
    (stepAnalysis startAnalysisState .tick).inflightProgress = 0 + 1 ∧
    (runEvents startAnalysisState (List.replicate 3 .tick)).inflightProgress = 3 :=
  ⟨c4_every_tick_issues_request.1 startAnalysisState rfl,
   c4_every_tick_issues_request.2 3⟩

/-! Claim C7. -/

/-- C7 counterexample: `isRetryableError` returns false for an error carrying
the RATE_LIMITED code — a 429-classified failure is not retryable in the
code, contrary to the claim. -/
theorem c7_rate_limited_counterexample :
    isRetryableError (some ⟨some ApiErrorCode.RATE_LIMITED, some "Too many requests"⟩)
      = false := rfl

/-- C7 (amended): `isRetryableError` holds exactly for the codes in
`retryableCodes` (NETWORK_ERROR, TIMEOUT, SERVER_ERROR, BAD_GATEWAY,
SERVICE_UNAVAILABLE); RATE_LIMITED errors are never retryable. -/
theorem c7_retryable_codes :
    (∀ m, isRetryableError (some ⟨some ApiErrorCode.RATE_LIMITED, m⟩) = false) ∧
    (∀ c m, isRetryableError (some ⟨some c, m⟩) = retryableCodes.contains c) ∧
    isRetryableError none = false := by
  refine ⟨fun m => rfl, fun c m => rfl, rfl⟩

/-! Helper lemmas for the validation engine claims. -/

theorem addWarning_errors (r : ValidationResult) (t m : String) (f : Option String) :
    (r.addWarning t m f).errors = r.errors := rfl

theorem mem_addWarning_self (r : ValidationResult) (t m : String) (f : Option String) :
    (⟨t, m, f⟩ : VItem) ∈ (r.addWarning t m f).warnings := by
  simp [ValidationResult.addWarning]

theorem mem_addWarning_of_mem (r : ValidationResult) (t m : String) (f : Option String)
    (w : VItem) (h : w ∈ r.warnings) : w ∈ (r.addWarning t m f).warnings := by
  simp only [ValidationResult.addWarning, List.mem_append]
  exact Or.inl h

theorem contentChecks_errors (r : ValidationResult) (t : String) :
    (jobDescriptionContentChecks r t).errors = r.errors := by
  simp only [jobDescriptionContentChecks]
  repeat' split
  all_goals rfl

theorem contentChecks_incomplete_mem (r : ValidationResult) (t : String)
    (h : (importantKeywords.filter (fun k => jsIncludes (jsToLower t) k)).length < 3) :
    (⟨"INCOMPLETE_CONTENT",
      "Consider including more details about responsibilities, requirements, and qualifications",
      some "job_description"⟩ : VItem) ∈ (jobDescriptionContentChecks r t).warnings := by
  simp only [jobDescriptionContentChecks, h, if_true]
  repeat' split
  all_goals first
    | exact mem_addWarning_self _ _ _ _
    | exact mem_addWarning_of_mem _ _ _ _ _ (mem_addWarning_self _ _ _ _)

theorem string_eq_empty_iff_data (s : String) : s = "" ↔ s.data = [] := by
  constructor
  · intro h; subst h; rfl
  · intro h
    cases s with
    | mk data => cases h; rfl

theorem validateRequired_vStr (s : String) (h : s ≠ "") (fieldName : String) :
    validateRequired (.vStr s) fieldName = { ValidationResult.empty with isValid := true } := by
  simp [validateRequired, jsIsNullUndefOrEmptyStr, h]

theorem validateNotWhitespaceOnly_vStr (s : String) (hs : s ≠ "") (htrim : jsTrim s ≠ "")
    (fieldName : String) :
    validateNotWhitespaceOnly (.vStr s) fieldName =
      .ok { ValidationResult.empty with isValid := true } := by
  have htruthy : truthy (.vStr s) = true := by simp [truthy, hs]
  have hlen : ((jsTrim s).data.length == 0) = false := by
    simp only [beq_eq_false_iff_ne]
    intro hzero
    exact htrim ((string_eq_empty_iff_data (jsTrim s)).mpr (List.length_eq_zero.mp hzero))
  simp only [validateNotWhitespaceOnly, htruthy, if_true, hlen, Bool.false_eq_true, if_false]

theorem validateTextLength_ok_in_range (s : String) (mn mx : Nat) (fieldName : String)
    (hmin : mn ≤ s.data.length) (hmax : s.data.length ≤ mx) :
    ∃ lr, validateTextLength (.vStr s) mn (some mx) fieldName = .ok lr ∧ lr.errors = [] := by
  have hlenEq : (if truthy (.vStr s) = true then do
        let lv ← getField (.vStr s) "length"
        pure (jsLenVal lv)
      else pure (some (0 : Nat))) = (.ok (some s.data.length) : Except JsErr (Option Nat)) := by
    by_cases hs : s = ""
    · subst hs; rfl
    · simp [truthy, hs, getField, jsLenVal, bind, Except.bind, pure, Except.pure]
  have hc1 : (decide (mn > 0) && optLt (some s.data.length) mn) = false := by
    simp only [optLt, Bool.and_eq_false_iff, decide_eq_false_iff_not]
    omega
  have hc2 : optGt (some s.data.length) mx = false := by
    simp only [optGt, decide_eq_false_iff_not]
    omega
  unfold validateTextLength
  rw [hlenEq]
  simp only [bind, Except.bind, hc1, hc2, Bool.false_eq_true, if_false, pure, Except.pure]
  split
  · exact ⟨_, rfl, rfl⟩
  · exact ⟨_, rfl, rfl⟩

/-! Claim C8. -/

/-- C8 counterexample: a 60-character whitespace-only job description is
within the hard length bounds [50, 10000] and contains no keyword, yet
`validateJobDescription` returns `isValid = false` with a WHITESPACE_ONLY
error and no INCOMPLETE_CONTENT warning — the claim fails for
whitespace-only strings. -/
theorem c8_whitespace_counterexample :
    (String.mk (List.replicate 60 ' ')).data.length = 60 ∧
    ∃ r, validateJobDescription (.vStr (String.mk (List.replicate 60 ' '))) = .ok r ∧
      r.isValid = false ∧
      r.errors = [⟨"WHITESPACE_ONLY", "Job description cannot contain only whitespace",
        some "job description"⟩] ∧
      r.warnings = [] := by
  exact ⟨by decide, _, rfl, rfl, rfl, rfl⟩

/-- C8 (amended): for every job description string whose length is within the
hard bounds [50, 10000], which is not whitespace-only, and which contains
fewer than 3 of the fixed keywords, `validateJobDescription` returns
`isValid = true` with an empty error list and an INCOMPLETE_CONTENT warning;
the keyword, short-content and repetition checks only ever add warnings. -/
theorem c8_incomplete_content_warning (s : String)
    (hmin : 50 ≤ s.data.length) (hmax : s.data.length ≤ 10000)
    (htrim : jsTrim s ≠ "")
    (hkw : (importantKeywords.filter (fun k => jsIncludes (jsToLower (jsTrim s)) k)).length < 3) :
    ∃ r, validateJobDescription (.vStr s) = .ok r ∧ r.isValid = true ∧ r.errors = [] ∧
      (⟨"INCOMPLETE_CONTENT",
        "Consider including more details about responsibilities, requirements, and qualifications",
        some "job_description"⟩ : VItem) ∈ r.warnings := by
  have hs : s ≠ "" := by
    intro h
    rw [h] at hmin
    exact absurd hmin (by decide)
  obtain ⟨lr, hlr, hlrerr⟩ := validateTextLength_ok_in_range s 50 10000 "Job description"
    hmin hmax
  have hreq := validateRequired_vStr s hs "Job description"
  have hws := validateNotWhitespaceOnly_vStr s hs htrim "Job description"
  have hbne : (jsTrim s != "") = true := by simp [htrim]
  unfold validateJobDescription
  rw [hreq, hws, hlr]
  simp only [bind, Except.bind, hbne, if_true, pure, Except.pure, hlrerr]
  refine ⟨_, rfl, ?_, ?_, ?_⟩
  · simp [contentChecks_errors, ValidationResult.empty]
  · simp [contentChecks_errors, ValidationResult.empty]
  · exact contentChecks_incomplete_mem _ _ hkw

/-- C8 witness: the amended theorem applied to a 95-character description
containing none of the keywords. -/
theorem c8_incomplete_content_warning_witness :
    ∃ r, validateJobDescription (.vStr
      "We want a friendly human who can help with many things and learn fast in a calm, quiet office.")
      = .ok r ∧ r.isValid = true ∧ r.errors = [] ∧
      (⟨"INCOMPLETE_CONTENT",
        "Consider including more details about responsibilities, requirements, and qualifications",
        some "job_description"⟩ : VItem) ∈ r.warnings :=
  c8_incomplete_content_warning _ (by decide) (by decide) (by decide) (by decide)

/-! Claim C9. -/

/-- C9 counterexample: `validateFile` throws a TypeError on a truthy file
object with no `name` string (at `file.name.split`), and
`validateJobDescription` throws a TypeError on a number (at `text.trim`),
instead of classifying the malformed input as a validation error. -/
theorem c9_throw_counterexample :
    validateFile (.vObj [("size", .vNum 1), ("type", .vStr "application/pdf")]) =
      .error .typeError ∧
    validateJobDescription (.vNum 42) = .error .typeError :=
  ⟨rfl, rfl⟩

/-- C9 (amended): `validateTextLength` returns a ValidationResult normally on
every input, but `validateFile` and `validateJobDescription` raise a
TypeError on malformed inputs (a file object whose name is not a string; a
truthy non-string description) instead of returning an error result. -/
theorem c9_validator_totality :
    (∀ (text : JSValue) (minLength : Nat) (maxLength : Option Nat) (fieldName : String),
      ∃ r, validateTextLength text minLength maxLength fieldName = .ok r) ∧
    validateFile (.vObj [("size", .vNum 2), ("name", .vNum 7)]) = .error .typeError ∧
    validateJobDescription (.vBool true) = .error .typeError := by
  refine ⟨?_, rfl, rfl⟩
  intro text minLength maxLength fieldName
  unfold validateTextLength
  by_cases h : truthy text = true
  · obtain ⟨w, hw⟩ := getField_isOk text "length"
      (by intro hv; subst hv; simp [truthy] at h)
      (by intro hv; subst hv; simp [truthy] at h)
    simp only [h, if_true, hw, bind, Except.bind, pure, Except.pure]
    repeat' split
    all_goals exact ⟨_, rfl⟩
  · simp only [Bool.not_eq_true] at h
    simp only [h, Bool.false_eq_true, if_false, bind, Except.bind, pure, Except.pure]
    repeat' split
    all_goals exact ⟨_, rfl⟩

/-! Helper lemmas for the sanitizer claim. -/

theorem lookup_setKey (values : List (String × JSValue)) (k : String) (v : JSValue) :
    (setKey values k v).lookup k = some v := by
  induction values with
  | nil => simp [setKey, List.lookup]
  | cons p rest ih =>
      obtain ⟨k0, v0⟩ := p
      simp only [setKey]
      split
      · next heq =>
          have hk : (k == k0) = true := by
            rw [beq_iff_eq] at heq ⊢
            exact heq.symm
          simp [List.lookup, hk]
      · next hne =>
          have hk : (k == k0) = false := by
            rw [beq_eq_false_iff_ne]
            intro e
            exact hne (by rw [beq_iff_eq]; exact e.symm)
          simp [List.lookup, hk, ih]

theorem mem_dropWhile (p : Char → Bool) (l : List Char) (c : Char)
    (h : c ∈ l.dropWhile p) : c ∈ l := by
  induction l with
  | nil => simp at h
  | cons a rest ih =>
      rw [List.dropWhile_cons] at h
      split at h
      · exact List.mem_cons_of_mem a (ih h)
      · exact h

theorem mem_jsTrimList (l : List Char) (c : Char) (h : c ∈ jsTrimList l) : c ∈ l := by
  unfold jsTrimList at h
  rw [List.mem_reverse] at h
  have h2 := mem_dropWhile _ _ _ h
  rw [List.mem_reverse] at h2
  exact mem_dropWhile _ _ _ h2

theorem mem_removeAllCIAux (p0 : Char) (ps : List Char) :
    ∀ (l : List Char) (skip : Nat) (c : Char), c ∈ removeAllCIAux p0 ps skip l → c ∈ l := by
  intro l
  induction l with
  | nil => intro skip c h; cases skip <;> simp [removeAllCIAux] at h
  | cons a rest ih =>
      intro skip c h
      cases skip with
      | succ m =>
          have heq : removeAllCIAux p0 ps (m + 1) (a :: rest) = removeAllCIAux p0 ps m rest :=
            rfl
          rw [heq] at h
          exact List.mem_cons_of_mem a (ih m c h)
      | zero =>
          simp only [removeAllCIAux] at h
          split at h
          · exact List.mem_cons_of_mem a (ih _ _ h)
          · rcases List.mem_cons.mp h with h1 | h2
            · exact h1 ▸ List.mem_cons_self a rest
            · exact List.mem_cons_of_mem a (ih _ _ h2)

theorem mem_removeOnHandlersAux (skip : Nat) (l : List Char) (ch : Char)
    (h : ch ∈ removeOnHandlersAux skip l) : ch ∈ l := by
  induction skip, l using removeOnHandlersAux.induct with
  | case1 skip head rest ih =>
      have e : removeOnHandlersAux (skip + 1) (head :: rest) = removeOnHandlersAux skip rest :=
        rfl
      rw [e] at h
      exact List.mem_cons_of_mem head (ih h)
  | case2 x =>
      cases x <;> simp [removeOnHandlersAux] at h
  | case3 c1 => exact h
  | case4 c1 c2 rest hcond tail heq hrun ih =>
      have e : removeOnHandlersAux 0 (c1 :: c2 :: rest) =
          removeOnHandlersAux ((rest.takeWhile isWordChar).length + 2) (c2 :: rest) := by
        simp only [removeOnHandlersAux, hcond, if_true, heq, hrun]
      rw [e] at h
      exact List.mem_cons_of_mem c1 (ih h)
  | case5 c1 c2 rest hcond tail heq hrun ih =>
      have e : removeOnHandlersAux 0 (c1 :: c2 :: rest) =
          c1 :: removeOnHandlersAux 0 (c2 :: rest) := by
        simp only [removeOnHandlersAux, hcond, if_true, heq, hrun, if_false]
      rw [e] at h
      rcases List.mem_cons.mp h with h1 | h2
      · exact h1 ▸ List.mem_cons_self _ _
      · exact List.mem_cons_of_mem c1 (ih h2)
  | case6 c1 c2 rest hcond hne ih =>
      have e : removeOnHandlersAux 0 (c1 :: c2 :: rest) =
          c1 :: removeOnHandlersAux 0 (c2 :: rest) := by
        simp only [removeOnHandlersAux, hcond, if_true]
      rw [e] at h
      rcases List.mem_cons.mp h with h1 | h2
      · exact h1 ▸ List.mem_cons_self _ _
      · exact List.mem_cons_of_mem c1 (ih h2)
  | case7 c1 c2 rest hcond ih =>
      have e : removeOnHandlersAux 0 (c1 :: c2 :: rest) =
          c1 :: removeOnHandlersAux 0 (c2 :: rest) := by
        simp only [removeOnHandlersAux, hcond, Bool.false_eq_true, if_false]
      rw [e] at h
      rcases List.mem_cons.mp h with h1 | h2
      · exact h1 ▸ List.mem_cons_self _ _
      · exact List.mem_cons_of_mem c1 (ih h2)

theorem sanitizeTextStr_no_angles (s : String) (c : Char)
    (h : c ∈ (sanitizeTextStr s).data) : c ≠ '<' ∧ c ≠ '>' := by
  unfold sanitizeTextStr at h
  have h2 := mem_jsTrimList _ _ h
  have h3 := mem_removeOnHandlersAux _ _ _ h2
  have h4 := mem_removeAllCIAux _ _ _ _ _ h3
  have h5 := List.mem_filter.mp h4
  constructor <;> (intro hc; subst hc; simp at h5)

theorem head_dropWhile_not (p : Char → Bool) :
    ∀ (l : List Char) (c : Char), (l.dropWhile p).head? = some c → p c = false := by
  intro l
  induction l with
  | nil => intro c h; simp at h
  | cons a rest ih =>
      intro c h
      rw [List.dropWhile_cons] at h
      split at h
      · exact ih c h
      · next hp =>
          simp only [List.head?_cons, Option.some.injEq] at h
          subst h
          exact Bool.not_eq_true _ |>.mp hp

theorem getLast_dropWhile_of_ne_nil (p : Char → Bool) :
    ∀ (l : List Char), l.dropWhile p ≠ [] → (l.dropWhile p).getLast? = l.getLast? := by
  intro l
  induction l with
  | nil => intro h; simp at h
  | cons a rest ih =>
      intro h
      rw [List.dropWhile_cons] at h ⊢
      split
      · next hp =>
          rw [if_pos hp] at h
          rw [ih h]
          have hrest : rest ≠ [] := by
            intro hr
            rw [hr] at h
            simp at h
          cases rest with
          | nil => exact absurd rfl hrest
          | cons b rest2 => rw [List.getLast?_cons_cons]
      · rfl

theorem jsTrimList_no_edge_whitespace (l : List Char) :
    (∀ c, (jsTrimList l).head? = some c → c.isWhitespace = false) ∧
    (∀ c, (jsTrimList l).getLast? = some c → c.isWhitespace = false) := by
  unfold jsTrimList
  constructor
  · intro c h
    rw [List.head?_reverse] at h
    by_cases hnil :
        ((l.dropWhile Char.isWhitespace).reverse).dropWhile Char.isWhitespace = []
    · rw [hnil] at h
      simp at h
    · rw [getLast_dropWhile_of_ne_nil _ _ hnil, List.getLast?_reverse] at h
      exact head_dropWhile_not _ _ _ h
  · intro c h
    rw [List.getLast?_reverse] at h
    exact head_dropWhile_not _ _ _ h

/-! Claim C10. -/

/-- C10 counterexample: a single replacement pass can reintroduce the very
substrings it removes, so the stored value is not free of them:
`sanitizeText` maps `javajavascript:script:` to `javascript:` (which
contains `javascript:`) and `oonload=nload=` to `onload=` (which matches the
event-handler pattern), and `handleChange` stores exactly these values. -/
theorem c10_reintroduction_counterexample :
    sanitizeTextStr "javajavascript:script:" = "javascript:" ∧
    jsIncludes (sanitizeTextStr "javajavascript:script:") "javascript:" = true ∧
    sanitizeTextStr "oonload=nload=" = "onload=" ∧
    (handleChangeValues defaultFormOptions [] "jobDescription"
        (.vStr "javajavascript:script:")).lookup "jobDescription" =
      some (.vStr "javascript:") :=
  ⟨rfl, rfl, rfl, rfl⟩

/-- C10 (amended): with default options, every string stored by
`handleChange` or `setFieldValue` equals `sanitizeText` of the raw input —
a silently mutated value; that value contains no angle bracket and no
leading or trailing whitespace, but a single replacement pass does not
guarantee absence of `javascript:` or `on...=` substrings (see the
counterexample). -/
theorem c10_values_are_sanitized :
    (∀ (values : List (String × JSValue)) (fieldName s : String),
      (handleChangeValues defaultFormOptions values fieldName (.vStr s)).lookup fieldName =
        some (sanitizeText (.vStr s))) ∧
    (∀ (values : List (String × JSValue)) (fieldName s : String),
      (setFieldValueValues defaultFormOptions values fieldName (.vStr s)).lookup fieldName =
        some (sanitizeText (.vStr s))) ∧
    (∀ (s : String) (c : Char), c ∈ (sanitizeTextStr s).data → c ≠ '<' ∧ c ≠ '>') ∧
    (∀ (s : String) (c : Char),
      ((sanitizeTextStr s).data.head? = some c → c.isWhitespace = false) ∧
      ((sanitizeTextStr s).data.getLast? = some c → c.isWhitespace = false)) := by
  refine ⟨?_, ?_, ?_, ?_⟩
  · intro values fieldName s
    exact lookup_setKey values fieldName _
  · intro values fieldName s
    exact lookup_setKey values fieldName _
  · exact sanitizeTextStr_no_angles
  · intro s c
    exact ⟨(jsTrimList_no_edge_whitespace _).1 c, (jsTrimList_no_edge_whitespace _).2 c⟩

/-- C10 witness: the amended theorem applied to concrete inputs. -/
theorem c10_values_are_sanitized_witness :
    ((handleChangeValues defaultFormOptions [] "field" (.vStr " hi "))).lookup "field" =
      some (sanitizeText (.vStr " hi ")) ∧
    ('a' ≠ '<' ∧ 'a' ≠ '>') ∧
    ('x'.isWhitespace = false) :=
  ⟨c10_values_are_sanitized.1 [] "field" " hi ",
   c10_values_are_sanitized.2.2.1 "ab<c" 'a' (by decide),
   (c10_values_are_sanitized.2.2.2 " x " 'x').1 (by decide)⟩

end ResumeCurator
